import Mathlib

/-!
Shallow embedding of the ngraph shape-inference core:
`op::util::BroadcastBase` (validate_and_infer_types, get_broadcast_axes,
evaluate_broadcast), `op::Squeeze` (pre_validate_and_infer_types, get_axes,
decompose_op) and `runtime::cpu::pass::CPULayout::run_on_call_graph`,
together with theorems checking the specification's claims about them.

Dimensions and shapes follow the source's data model: a dimension is a
static size or unknown, a partial shape is a dimension list or wholly
unknown rank.  Machine integers are modelled as Nat/Int with explicit
reduction mod 2^64 where the C++ mixes signed and unsigned 64-bit values.
-/

/-- The element-type enumeration of `ngraph::element::Type_t`. -/
inductive ElementType
  | undefined
  | dynamic
  | boolean
  | bf16
  | f16
  | f32
  | f64
  | i8
  | i16
  | i32
  | i64
  | u1
  | u8
  | u16
  | u32
  | u64
  deriving DecidableEq

/-- `element::Type::is_integral_number()`: integral and not boolean. -/
def ElementType.is_integral_number : ElementType → Bool
  | .i8 | .i16 | .i32 | .i64 | .u1 | .u8 | .u16 | .u32 | .u64 => true
  | _ => false

/-- `ngraph::Dimension`: a static non-negative size or dynamic. -/
inductive Dim
  | static (n : Nat)
  | dyn
  deriving DecidableEq

def Dim.is_static : Dim → Bool
  | .static _ => true
  | .dyn => false

/-- The value of a static dimension (its `get_length`); junk 0 on dynamic. -/
def Dim.val : Dim → Nat
  | .static n => n
  | .dyn => 0

/-- `ngraph::PartialShape`: a dimension list, or wholly unknown rank. -/
inductive PShape
  | dynamic
  | shape (dims : List Dim)
  deriving DecidableEq

/-- `PartialShape::is_static()`. -/
def PShape.is_static : PShape → Bool
  | .dynamic => false
  | .shape ds => ds.all Dim.is_static

/-- `rank().compatible(1)`: a dynamic rank is compatible with anything. -/
def PShape.rank_compatible_one : PShape → Bool
  | .dynamic => true
  | .shape ds => decide (ds.length = 1)

/-- The `Shape` (list of sizes) a static partial shape converts to; only
meaningful under `is_static`. -/
def PShape.toShape : PShape → List Nat
  | .dynamic => []
  | .shape ds => ds.map Dim.val

/-- `ngraph::shape_size`: the element count of a shape (dimension product). -/
def shape_size (s : List Nat) : Nat := s.foldl (· * ·) 1

/-- Unsigned 64-bit subtraction `a - b` as the C++ `size_t` difference wraps. -/
def usub64 (a b : Nat) : Nat := (2 ^ 64 + a - b) % 2 ^ 64

/-- The value an `int64_t` converts to as `uint64_t`. -/
def intToU64 (i : Int) : Nat := (i % (2 ^ 64 : Int)).toNat

/-- `std::is_sorted` with the default comparator: no element is less than
its predecessor (non-decreasing, repeats allowed). -/
def isSortedLe : List Nat → Bool
  | [] => true
  | [_] => true
  | a :: b :: rest => decide (a ≤ b) && isSortedLe (b :: rest)

/-- `BroadcastType` of `op::BroadcastModeSpec`; in the source `EXPLICIT` is
an alias of `NONE`. -/
inductive BroadcastType
  | NONE
  | NUMPY
  | PDPD
  deriving DecidableEq

/-- What produces a broadcast node's `target_shape` input (input 1): a
literal `op::v0::Constant` (with its `get_shape_val()`), a `Concat` node
(its output shape and, per concat input, the scalar constant value when
that input is itself a `Constant`), or anything else. -/
inductive ShapeSource
  | constant (val : List Nat)
  | concat (out_ps : PShape) (scalars : List (Option Nat))
  | other
  deriving DecidableEq

/-- The state of a `BroadcastBase` node that its inference reads: input
value descriptors, the literal values of constant inputs, and the mode.
`axes_et`, `axes_ps`, `axes_val` describe input 2 and matter only in
`NONE` (EXPLICIT) mode. -/
structure BroadcastNode where
  arg_et : ElementType
  arg_ps : PShape
  shape_et : ElementType
  shape_ps : PShape
  shape_src : ShapeSource
  axes_et : ElementType
  axes_ps : PShape
  axes_val : Option (List Nat)
  mode : BroadcastType
  m_axis : Int
  deriving DecidableEq

/-- `shape_constant` in the source: input 1 viewed as a `Constant`. -/
def BroadcastNode.shape_const (b : BroadcastNode) : Option (List Nat) :=
  match b.shape_src with
  | .constant v => some v
  | _ => none

/-- The target-shape resolution of `validate_and_infer_types` lines 79-109:
a constant gives its value; a rank-1 static concatenation whose input count
matches its element count gives a per-position partially-known shape;
anything else leaves the result shape dynamic. -/
def resolveResultShape (b : BroadcastNode) : PShape :=
  match b.shape_src with
  | .constant v => .shape (v.map Dim.static)
  | .concat cps scalars =>
      if cps.is_static = true ∧ cps.toShape.length = 1 ∧
          scalars.length = shape_size cps.toShape then
        .shape (scalars.map (fun s => match s with
          | some v => Dim.static v
          | none => Dim.dyn))
      else .dynamic
  | .other => .dynamic

/-- The `start_axis` of the NUMPY/PDPD branch.  The C++ ternary mixes the
signed `m_mode.m_axis` with the unsigned `target_shape.size() -
arg_shape.size()`, so the common type is `uint64_t` and the subtraction
wraps. -/
def startAxis (mode : BroadcastType) (m_axis : Int) (targetLen argLen : Nat) : Nat :=
  match mode with
  | .PDPD => intToU64 m_axis
  | _ => usub64 targetLen argLen

/-- The per-position condition of the NUMPY/PDPD alignment check: the
argument dimension aligned with target position `i` is 1, or the target
dimension is 1, or the two are equal. -/
def dimCompat (argS targetS : List Nat) (s i : Nat) : Prop :=
  argS.getD (i - s) 0 = 1 ∨ targetS.getD i 0 = 1 ∨
    argS.getD (i - s) 0 = targetS.getD i 0

instance (argS targetS : List Nat) (s i : Nat) : Decidable (dimCompat argS targetS s i) := by
  unfold dimCompat; infer_instance

/-- The NUMPY/PDPD alignment loop of lines 184-195, iterating the index
list `[start_axis, target rank)`: each aligned position must hold 1 on one
side or equal dimensions, and the result dimension there becomes the
larger side; the first violation aborts validation. -/
def bcastGo (argS targetS : List Nat) (s : Nat) : List Nat → List Dim → Option (List Dim)
  | [], acc => some acc
  | i :: rest, acc =>
      if dimCompat argS targetS s i then
        bcastGo argS targetS s rest
          (acc.set i (Dim.static (max (argS.getD (i - s) 0) (targetS.getD i 0))))
      else none

/-- The EXPLICIT-mode axes-mapping loop of lines 142-162: each mapped axis
must lie within the target rank and the target dimension there must equal
the corresponding argument dimension; checked left to right. -/
def explicitCheckFrom (target arg_shape : List Nat) : List Nat → Nat → Bool
  | [], _ => true
  | a :: rest, i =>
      decide (a < target.length) &&
      decide (target.getD a 0 = arg_shape.getD i 0) &&
      explicitCheckFrom target arg_shape rest (i + 1)

/-- The result shape `BroadcastBase::validate_and_infer_types` computes,
`none` on a validation failure (a thrown `NODE_VALIDATION_CHECK`).  The
`decide (0 ≤ start_axis)` guard mirrors the C++ `start_axis >= 0` check,
which compares an unsigned value and can never fail. -/
def BroadcastNode.validate_shape (b : BroadcastNode) : Option PShape :=
  if ¬ b.shape_et.is_integral_number = true then none
  else if ¬ b.shape_ps.rank_compatible_one = true then none
  else if b.mode = .NONE ∧ ¬ b.axes_et.is_integral_number = true then none
  else if b.mode = .NONE ∧ ¬ b.axes_ps.rank_compatible_one = true then none
  else
    let result0 := resolveResultShape b
    match b.mode with
    | .NONE =>
      if b.arg_ps.is_static = true ∧ b.shape_ps.is_static = true ∧
          b.axes_ps.is_static = true then
        let arg_shape := b.arg_ps.toShape
        let axes_shape := b.axes_ps.toShape
        if ¬ shape_size axes_shape = arg_shape.length then none
        else
          match b.shape_const, b.axes_val with
          | some target, some av =>
            if ¬ isSortedLe av = true then none
            else if ¬ explicitCheckFrom target arg_shape av 0 = true then none
            else some result0
          | _, _ => some result0
      else some result0
    | _ =>
      if b.arg_ps.is_static = true ∧ b.shape_ps.is_static = true then
        let arg_shape := b.arg_ps.toShape
        match b.shape_const with
        | some target =>
          let s := startAxis b.mode b.m_axis target.length arg_shape.length
          if ¬ 0 ≤ s then none
          else
            match bcastGo arg_shape target s
                (List.range' s (target.length - s)) (target.map Dim.static) with
            | some dims => some (.shape dims)
            | none => none
        | none => some result0
      else some result0

/-- `BroadcastBase::validate_and_infer_types`: on success the single
output gets the argument's element type and the computed result shape
(`set_output_type(0, get_input_element_type(0), result_shape)`). -/
def BroadcastNode.validate_and_infer_types (b : BroadcastNode) :
    Option (ElementType × PShape) :=
  (b.validate_shape).map (fun ps => (b.arg_et, ps))

/-- The erase loop of `get_broadcast_axes` in NONE mode: walk the literal
axes-mapping back to front and erase that position from the index vector. -/
def eraseMapped (av : List Nat) (axes : List Nat) : List Nat :=
  av.reverse.foldl (fun acc i => acc.eraseIdx i) axes

/-- `BroadcastBase::get_broadcast_axes`: `(known, synthesized axes)`.
`none` models a thrown `NGRAPH_CHECK`; the axis set is kept as the ordered
duplicate-free list the loops insert.  The imperative `insert` loop of the
NUMPY/PDPD branch is written as a filter over the output index range, which
inserts exactly the same axes in the same order.  `out_ps` is the node's
inferred output shape, `get_output_partial_shape(0)`. -/
def BroadcastNode.get_broadcast_axes (b : BroadcastNode) (out_ps : PShape) :
    Option (Bool × List Nat) :=
  match b.mode with
  | .NONE =>
    match b.axes_val with
    | some av =>
      if b.shape_ps.is_static = true then
        let target_shape := b.shape_ps.toShape
        if ¬ target_shape.length = 1 then none
        else some (true, eraseMapped av (List.range (target_shape.getD 0 0)))
      else some (false, [])
    | none => some (false, [])
  | _ =>
    if b.arg_ps.is_static = true ∧ out_ps.is_static = true then
      let arg_shape := b.arg_ps.toShape
      let result_shape := out_ps.toShape
      let s := startAxis b.mode b.m_axis result_shape.length arg_shape.length
      some (true, (List.range result_shape.length).filter
        (fun i => decide (i < s) ||
          decide (¬ result_shape.getD i 0 = arg_shape.getD (i - s) 0)))
    else some (false, [])

/-- A host tensor as `evaluate_broadcast` sees it: an element type and a
shape; the raw buffer belongs to the external reference kernel. -/
structure HostTensor where
  element_type : ElementType
  shape : List Nat
  deriving DecidableEq

/-- The element types the `switch` of `evaluate_broadcast` has a
`TYPE_CASE` for; any other tag takes the `default: rc = false` branch. -/
def supported_et : ElementType → Bool
  | .boolean | .i8 | .i16 | .i32 | .i64 | .u8 | .u16 | .u32 | .u64
  | .bf16 | .f16 | .f32 | .f64 => true
  | _ => false

/-- `evaluate_broadcast` (anonymous namespace, lines 288-332): unknown axes
fail before touching the output; otherwise the output is resized to the
inferred shape and the switch dispatches on the input's element-type tag.
The returned `Option ElementType` records which reference-kernel
instantiation was selected (`none` when the default branch ran). -/
def evaluate_broadcast (arg0 out : HostTensor) (pair_broadcast_axes : Bool × List Nat)
    (output_shape : List Nat) : Bool × HostTensor × Option ElementType :=
  if pair_broadcast_axes.1 = false then (false, out, none)
  else
    let out' : HostTensor := { out with shape := output_shape }
    if supported_et arg0.element_type = true then
      (true, out', some arg0.element_type)
    else (false, out', none)

/-- The state of an `op::Squeeze` node that its inference reads: the data
input's value descriptor and, when input 1 is an `op::v0::Constant`, its
`cast_vector<int64_t>()` value. -/
structure SqueezeNode where
  data_et : ElementType
  data_ps : PShape
  axes_val : Option (List Int)
  deriving DecidableEq

/-- Modelled from the spec: `normalize_axis` lives in
`validation_util.cpp`, which is not among these sources.  Per the spec the
normalization "resolve[s] negative indices ... against data's rank"; an
axis outside `[-rank, rank)` is a validation failure. -/
def normalize_axis (rank : Nat) (axis : Int) : Option Nat :=
  if 0 ≤ axis ∧ axis < (rank : Int) then some axis.toNat
  else if -(rank : Int) ≤ axis ∧ axis < 0 then some (axis + rank).toNat
  else none

/-- Modelled from the spec: `normalize_axes` (also of
`validation_util.cpp`) normalizes each axis in turn. -/
def normalize_axes (rank : Nat) (axes : List Int) : Option (List Nat) :=
  axes.mapM (normalize_axis rank)

/-- `Squeeze::get_axes`: dynamic rank or a non-constant axes input throws;
an empty literal re-derives the axes as every position of the (required
static) data shape holding 1; otherwise the literal axes are normalized. -/
def SqueezeNode.get_axes (n : SqueezeNode) : Option (List Nat) :=
  match n.data_ps, n.axes_val with
  | .dynamic, _ => none
  | _, none => none
  | .shape ds, some av =>
    if av = [] then
      if (PShape.shape ds).is_static = true then
        some ((List.range ds.length).filter
          (fun i => decide ((ds.map Dim.val).getD i 0 = 1)))
      else none
    else normalize_axes ds.length av

/-- `Squeeze::pre_validate_and_infer_types`: dynamic rank, non-constant
axes, or an empty literal over a not fully static shape give a dynamic
output; otherwise every axis of a fully static shape must hold 1, and the
output keeps the dimensions at the non-removed positions in order. -/
def SqueezeNode.pre_validate_and_infer_types (n : SqueezeNode) :
    Option (ElementType × PShape) :=
  match n.data_ps, n.axes_val with
  | .dynamic, _ => some (n.data_et, .dynamic)
  | _, none => some (n.data_et, .dynamic)
  | .shape ds, some av =>
    if ¬ (PShape.shape ds).is_static = true ∧ av = [] then
      some (n.data_et, .dynamic)
    else
      match n.get_axes with
      | none => none
      | some axes =>
        if (PShape.shape ds).is_static = true ∧
            ¬ (axes.all (fun a => decide ((ds.map Dim.val).getD a 0 = 1))) = true then
          none
        else
          some (n.data_et, .shape
            (((List.range ds.length).filter (fun i => decide (i ∉ axes))).map
              (fun i => ds.getD i Dim.dyn)))

/-- `ngraph::get_default_order(rank)`: the identity axis order `0..rank-1`. -/
def get_default_order (rank : Nat) : List Nat := List.range rank

/-- The one primitive node `Squeeze::decompose_op` builds: a
`op::Reshape` over the original data input with an input order and an
output shape. -/
structure ReshapeNode where
  data_et : ElementType
  data_ps : PShape
  input_order : List Nat
  output_shape : List Nat
  deriving DecidableEq

/-- Modelled from the spec: `Output::get_shape` (defined outside these
sources) yields the static shape of a value; per the data model a shape
with an unknown dimension has no static `Shape`, so the call fails there. -/
def PShape.get_shape : PShape → Option (List Nat)
  | .dynamic => none
  | .shape ds => if ds.all Dim.is_static then some (ds.map Dim.val) else none

/-- `Squeeze::decompose_op`: a non-static inferred output shape is a
validation failure producing no nodes; otherwise one `Reshape` over the
original data with the identity input order and the inferred output
shape.  `out_ps` is the node's `get_output_partial_shape(0)`. -/
def SqueezeNode.decompose_op (n : SqueezeNode) (out_ps : PShape) :
    Option (List ReshapeNode) :=
  if ¬ out_ps.is_static = true then none
  else
    match n.data_ps.get_shape with
    | none => none
    | some data_shape =>
      match out_ps.get_shape with
      | none => none
      | some output_data_shape =>
        some [⟨n.data_et, n.data_ps, get_default_order data_shape.length,
               output_data_shape⟩]

/-- Modelled from the spec: the CPU `LayoutDescriptor` (its class is not
among these sources) is "derive[d] ... purely from that output's own
shape/rank", here recorded as that shape. -/
structure LayoutDescriptor where
  tensor_shape : List Dim
  deriving DecidableEq

/-- One output tensor view of a node: its shape and the layout descriptor
slot the layout pass fills. -/
structure OutputTensorView where
  shape : List Dim
  layout : Option LayoutDescriptor
  deriving DecidableEq

/-- A node of the call graph as the layout pass sees it: its outputs. -/
structure CGNode where
  outputs : List OutputTensorView
  deriving DecidableEq

/-- The per-output body of `CPULayout::run_on_call_graph`: an output that
already carries a layout is skipped, otherwise a default descriptor built
from the output's own tensor view is attached. -/
def assign_layout (tv : OutputTensorView) : OutputTensorView :=
  match tv.layout with
  | some _ => tv
  | none => { tv with layout := some ⟨tv.shape⟩ }

/-- `CPULayout::run_on_call_graph`: visit every output of every node in
order, attach missing layouts, and report no structural change. -/
def run_on_call_graph (nodes : List CGNode) : Bool × List CGNode :=
  (false, nodes.map (fun n => { n with outputs := n.outputs.map assign_layout }))

/-- The output tensor view at node index `i`, output slot `j`. -/
def outputAt (nodes : List CGNode) (i j : Nat) : Option OutputTensorView :=
  nodes[i]?.bind (fun n => n.outputs[j]?)

/-- A NUMPY broadcast of a rank-2 argument onto a rank-1 literal target:
the target rank is smaller than the argument rank. -/
def bcNumpySmallTarget : BroadcastNode :=
  { arg_et := .f32, arg_ps := .shape [.static 2, .static 3],
    shape_et := .i64, shape_ps := .shape [.static 1],
    shape_src := .constant [3],
    axes_et := .i64, axes_ps := .dynamic, axes_val := none,
    mode := .NUMPY, m_axis := 0 }

/-- An EXPLICIT broadcast whose literal axes-mapping `{1,1}` repeats an
axis (so it is not strictly increasing) yet passes every dimension check. -/
def bcExplicitRepeatOk : BroadcastNode :=
  { arg_et := .f32, arg_ps := .shape [.static 2, .static 2],
    shape_et := .i64, shape_ps := .shape [.static 2],
    shape_src := .constant [3, 2],
    axes_et := .i64, axes_ps := .shape [.static 2], axes_val := some [1, 1],
    mode := .NONE, m_axis := 0 }

/-- An EXPLICIT broadcast with the repeated axes-mapping `{1,1}` whose
second dimension check fails. -/
def bcExplicitRepeatFail : BroadcastNode :=
  { arg_et := .f32, arg_ps := .shape [.static 2, .static 3],
    shape_et := .i64, shape_ps := .shape [.static 2],
    shape_src := .constant [9, 2],
    axes_et := .i64, axes_ps := .shape [.static 2], axes_val := some [1, 1],
    mode := .NONE, m_axis := 0 }

/-- The spec's passing NUMPY example: argument `{1,3}`, target `{4,1,3}`. -/
def bcNumpyOk : BroadcastNode :=
  { arg_et := .f32, arg_ps := .shape [.static 1, .static 3],
    shape_et := .i64, shape_ps := .shape [.static 3],
    shape_src := .constant [4, 1, 3],
    axes_et := .i64, axes_ps := .dynamic, axes_val := none,
    mode := .NUMPY, m_axis := 0 }

/-- Squeeze of data shape `{2,1,3}` with axis list `{0}`. -/
def sq213axis0 : SqueezeNode :=
  ⟨.f32, .shape [.static 2, .static 1, .static 3], some [0]⟩

/-- Squeeze of data shape `{2,1,3}` with axis list `{1}`. -/
def sq213axis1 : SqueezeNode :=
  ⟨.f32, .shape [.static 2, .static 1, .static 3], some [1]⟩

/-- Squeeze of the partially dynamic data shape `{2,?}` with axis list
`{0}`: the removed axis 0 is statically known to be 2. -/
def sqStaticTwoAxis0 : SqueezeNode :=
  ⟨.f32, .shape [.static 2, .dyn], some [0]⟩

/-- Squeeze of the fully static unit shape `{1}` with an empty literal
axis list. -/
def sqUnitEmptyAxes : SqueezeNode :=
  ⟨.f32, .shape [.static 1], some []⟩

/-- Squeeze of the partially dynamic data shape `{2,?}` with axis list
`{1}`: its inferred output shape `{2}` is fully static. -/
def sqDynDataAxis1 : SqueezeNode :=
  ⟨.f32, .shape [.static 2, .dyn], some [1]⟩

/-- The spec's failing EXPLICIT example: axes-mapping `{2,0}` is not
sorted. -/
def bcExplicitUnsorted : BroadcastNode :=
  { arg_et := .f32, arg_ps := .shape [.static 4, .static 3],
    shape_et := .i64, shape_ps := .shape [.static 3],
    shape_src := .constant [4, 1, 3],
    axes_et := .i64, axes_ps := .shape [.static 2], axes_val := some [2, 0],
    mode := .NONE, m_axis := 0 }

/-! Helper lemmas about lists, shared by the claim theorems below. -/

theorem getD_set_self {α : Type} (l : List α) (i : Nat) (v d : α) (h : i < l.length) :
    (l.set i v).getD i d = v := by
  rw [List.getD_eq_getElem _ _ (by simpa using h), List.getElem_set]
  simp

theorem getD_set_ne {α : Type} (l : List α) (i j : Nat) (v d : α) (h : ¬ j = i) :
    (l.set i v).getD j d = l.getD j d := by
  by_cases hj : j < l.length
  · rw [List.getD_eq_getElem _ _ (by simpa using hj), List.getD_eq_getElem _ _ hj,
      List.getElem_set, if_neg (fun hij => h hij.symm)]
  · rw [List.getD_eq_default _ _ (by simpa using Nat.le_of_not_lt hj),
      List.getD_eq_default _ _ (Nat.le_of_not_lt hj)]

theorem getD_map_lt {α β : Type} (f : α → β) (l : List α) (i : Nat) (d : α) (d' : β)
    (h : i < l.length) : (l.map f).getD i d' = f (l.getD i d) := by
  rw [List.getD_eq_getElem _ _ (by simpa using h), List.getD_eq_getElem _ _ h,
    List.getElem_map]

theorem list_eq_of_getD (l1 l2 : List Dim) (h : l1.length = l2.length)
    (hg : ∀ j, j < l1.length → l1.getD j Dim.dyn = l2.getD j Dim.dyn) : l1 = l2 := by
  apply List.ext_getElem h
  intro j h1 h2
  have hj := hg j h1
  rwa [List.getD_eq_getElem _ _ h1, List.getD_eq_getElem _ _ h2] at hj

theorem is_static_map_static (l : List Nat) :
    (PShape.shape (l.map Dim.static)).is_static = true := by
  simp [PShape.is_static, List.all_map, Function.comp, Dim.is_static]

theorem val_comp_static : Dim.val ∘ Dim.static = id :=
  funext (fun _ => rfl)

theorem toShape_map_static (l : List Nat) :
    (PShape.shape (l.map Dim.static)).toShape = l := by
  simp [PShape.toShape, List.map_map, val_comp_static]

theorem get_shape_map_static (l : List Nat) :
    (PShape.shape (l.map Dim.static)).get_shape = some l := by
  simp [PShape.get_shape, List.all_map, Function.comp, Dim.is_static, List.map_map,
    val_comp_static]

theorem filter_not_mem_length (n : Nat) (axes : List Nat) (h : ∀ a ∈ axes, a < n) :
    ((List.range n).filter (fun i => decide (i ∉ axes))).length = n - axes.dedup.length := by
  have h1 : ((List.range n).filter (fun i => decide (i ∈ axes))).length
      = axes.dedup.length := by
    have hperm : ((List.range n).filter (fun i => decide (i ∈ axes))).Perm axes.dedup := by
      rw [List.perm_ext_iff_of_nodup ((List.nodup_range n).filter _) (List.nodup_dedup axes)]
      intro a
      simp only [List.mem_filter, List.mem_range, List.mem_dedup, decide_eq_true_eq]
      exact ⟨fun ha => ha.2, fun ha => ⟨h a ha, ha⟩⟩
    exact hperm.length_eq
  have h2 := List.length_eq_length_filter_add (l := List.range n)
    (fun i => decide (i ∈ axes))
  rw [List.length_range] at h2
  have h3 : (List.filter (fun i => !decide (i ∈ axes)) (List.range n))
      = (List.range n).filter (fun i => decide (i ∉ axes)) := by
    apply List.filter_congr
    intro x _
    simp
  rw [h3] at h2
  omega

theorem bcastGo_none (argS targetS : List Nat) (s : Nat) (idxs : List Nat) :
    ∀ acc : List Dim, (∃ i ∈ idxs, ¬ dimCompat argS targetS s i) →
      bcastGo argS targetS s idxs acc = none := by
  induction idxs with
  | nil =>
    intro acc h
    obtain ⟨i, hi, _⟩ := h
    simp at hi
  | cons i rest ih =>
    intro acc h
    by_cases hc : dimCompat argS targetS s i
    · rw [bcastGo, if_pos hc]
      apply ih
      obtain ⟨j, hj, hjc⟩ := h
      rcases List.mem_cons.mp hj with hji | hjr
      · subst hji
        exact absurd hc hjc
      · exact ⟨j, hjr, hjc⟩
    · rw [bcastGo, if_neg hc]

theorem bcastGo_some (argS targetS : List Nat) (s : Nat) (idxs : List Nat) :
    ∀ acc : List Dim, (∀ i ∈ idxs, dimCompat argS targetS s i) →
      (∀ i ∈ idxs, i < acc.length) →
      ∃ out, bcastGo argS targetS s idxs acc = some out ∧
        out.length = acc.length ∧
        ∀ j, out.getD j Dim.dyn =
          if j ∈ idxs then
            Dim.static (max (argS.getD (j - s) 0) (targetS.getD j 0))
          else acc.getD j Dim.dyn := by
  induction idxs with
  | nil =>
    intro acc _ _
    exact ⟨acc, rfl, rfl, fun j => by simp⟩
  | cons i rest ih =>
    intro acc hcomp hlen
    have hci : dimCompat argS targetS s i := hcomp i (by simp)
    obtain ⟨out, hgo, hlen2, hget⟩ :=
      ih (acc.set i (Dim.static (max (argS.getD (i - s) 0) (targetS.getD i 0))))
        (fun j hj => hcomp j (List.mem_cons_of_mem _ hj))
        (fun j hj => by
          rw [List.length_set]
          exact hlen j (List.mem_cons_of_mem _ hj))
    refine ⟨out, ?_, ?_, ?_⟩
    · rw [bcastGo, if_pos hci]
      exact hgo
    · rw [hlen2, List.length_set]
    · intro j
      rw [hget j]
      by_cases hjr : j ∈ rest
      · rw [if_pos hjr, if_pos (List.mem_cons_of_mem _ hjr)]
      · by_cases hji : j = i
        · subst hji
          rw [if_neg hjr, if_pos (List.mem_cons_self _ _),
            getD_set_self acc j _ Dim.dyn (hlen j (List.mem_cons_self _ _))]
        · have hnc : j ∉ i :: rest := by
            simp [List.mem_cons, hji, hjr]
          rw [if_neg hjr, if_neg hnc, getD_set_ne acc i j _ Dim.dyn hji]

/-! Claim theorems. -/

/-- C1: the spec says a NUMPY/PDPD broadcast must fail validation whenever
the start axis would be negative, i.e. whenever the literal target shape
has smaller rank than the static argument shape; the code's own diagnostic
says the same.  The code instead accepts such a node: `start_axis` is
unsigned, the wrapped difference makes `start_axis >= 0` vacuously true
and the alignment loop is skipped, so validation succeeds and infers the
rank-1 target shape for a rank-2 argument. -/
theorem broadcast_rank_check_bypassed :
    ([3] : List Nat).length < ([2, 3] : List Nat).length ∧
    bcNumpySmallTarget.arg_ps = PShape.shape [Dim.static 2, Dim.static 3] ∧
    bcNumpySmallTarget.shape_src = ShapeSource.constant [3] ∧
    bcNumpySmallTarget.validate_and_infer_types =
      some (ElementType.f32, PShape.shape [Dim.static 3]) := by
  refine ⟨by decide, rfl, rfl, ?_⟩
  decide

/-- C2 counterexample: the axes-mapping `{1,1}` is not strictly
increasing, yet the EXPLICIT broadcast `bcExplicitRepeatOk` passes
validation, because `std::is_sorted` only requires a non-decreasing
mapping and every dimension check succeeds. -/
theorem broadcast_explicit_strict_cex :
    ¬ List.Chain' (· < ·) ([1, 1] : List Nat) ∧
    bcExplicitRepeatOk.axes_val = some [1, 1] ∧
    bcExplicitRepeatOk.validate_and_infer_types =
      some (ElementType.f32, PShape.shape [Dim.static 3, Dim.static 2]) := by
  refine ⟨?_, rfl, by decide⟩
  intro h
  exact absurd (List.chain'_cons.mp h).1 (by omega)

/-- C3 counterexample: data shape `{2,?}` with axis list `{0}`: the
removed axis 0 is statically known to be 2 ≠ 1, but because the data
shape is not fully static the size-1 check is skipped and inference
succeeds. -/
theorem squeeze_nonunit_cex :
    sqStaticTwoAxis0.data_ps = PShape.shape [Dim.static 2, Dim.dyn] ∧
    sqStaticTwoAxis0.axes_val = some [0] ∧
    sqStaticTwoAxis0.pre_validate_and_infer_types =
      some (ElementType.f32, PShape.shape [Dim.dyn]) := by
  refine ⟨rfl, rfl, ?_⟩
  decide

/-- C5 counterexample: the empty literal axis list over the fully static
shape `{1}` removes every unit dimension, so the output has rank 0, not
the rank `rank(S) - |A| = 1` the claim's formula gives. -/
theorem squeeze_empty_axes_cex :
    sqUnitEmptyAxes.axes_val = some [] ∧
    sqUnitEmptyAxes.pre_validate_and_infer_types =
      some (ElementType.f32, PShape.shape []) ∧
    PShape.shape [] ≠ PShape.shape [Dim.static 1] := by
  refine ⟨rfl, ?_, by decide⟩
  decide

/-- C8 counterexample: `sqDynDataAxis1` has the fully static inferred
output shape `{2}`, yet `decompose_op` produces no `Reshape` node: the
data shape `{2,?}` is not static, so `data.get_shape()` fails. -/
theorem squeeze_decompose_cex :
    sqDynDataAxis1.pre_validate_and_infer_types =
      some (ElementType.f32, PShape.shape [Dim.static 2]) ∧
    (PShape.shape [Dim.static 2]).is_static = true ∧
    sqDynDataAxis1.decompose_op (PShape.shape [Dim.static 2]) = none := by
  refine ⟨by decide, by decide, ?_⟩
  decide

/-- C10: in every mode and on every resolution path, a successful
`validate_and_infer_types` gives the output the argument's element type:
the single `set_output_type` call passes `get_input_element_type(0)`. -/
theorem broadcast_preserves_element_type (b : BroadcastNode) (et : ElementType)
    (ps : PShape) (h : b.validate_and_infer_types = some (et, ps)) :
    et = b.arg_et := by
  unfold BroadcastNode.validate_and_infer_types at h
  cases hs : b.validate_shape with
  | none => rw [hs] at h; simp at h
  | some ps' =>
    rw [hs] at h
    simp only [Option.map_some'] at h
    have hpair := Option.some.inj h
    exact (congrArg Prod.fst hpair).symm

/-- C10 witness: the concrete NUMPY broadcast `bcNumpyOk` keeps its f32
argument element type. -/
theorem broadcast_preserves_element_type_witness : ElementType.f32 = bcNumpyOk.arg_et :=
  broadcast_preserves_element_type bcNumpyOk ElementType.f32
    (PShape.shape [Dim.static 4, Dim.static 1, Dim.static 3]) (by decide)

/-- C7: `evaluate_broadcast` fails without touching the output when the
broadcast axes are not known; with known axes it resizes the output to the
inferred shape and then either dispatches the kernel instantiation of the
input's element-type tag or, for a tag outside the supported enumeration,
reports failure. -/
theorem evaluate_broadcast_dispatch (arg0 out : HostTensor) (pair : Bool × List Nat)
    (oshape : List Nat) :
    (pair.1 = false → evaluate_broadcast arg0 out pair oshape = (false, out, none)) ∧
    (pair.1 = true → supported_et arg0.element_type = false →
      evaluate_broadcast arg0 out pair oshape =
        (false, { out with shape := oshape }, none)) ∧
    (pair.1 = true → supported_et arg0.element_type = true →
      evaluate_broadcast arg0 out pair oshape =
        (true, { out with shape := oshape }, some arg0.element_type)) := by
  unfold evaluate_broadcast
  refine ⟨fun h => ?_, fun h1 h2 => ?_, fun h1 h2 => ?_⟩
  · rw [if_pos h]
  · rw [if_neg (by simp [h1]), if_neg (by simp [h2])]
  · rw [if_neg (by simp [h1]), if_pos h2]

/-- C8 (amended): decomposition of a squeeze node whose inferred output
shape is not fully static fails, with no replacement node; when the output
shape and the data shape are both fully static, it returns exactly one
`Reshape` over the original data with the identity input order and the
inferred output shape. -/
theorem squeeze_decompose_reshape (n : SqueezeNode) (out_ps : PShape) :
    (out_ps.is_static = false → n.decompose_op out_ps = none) ∧
    (∀ ds os : List Nat, n.data_ps = PShape.shape (ds.map Dim.static) →
      out_ps = PShape.shape (os.map Dim.static) →
      n.decompose_op out_ps =
        some [⟨n.data_et, n.data_ps, get_default_order ds.length, os⟩]) := by
  constructor
  · intro h
    unfold SqueezeNode.decompose_op
    rw [if_pos (by simp [h])]
  · intro ds os hdata hout
    obtain ⟨det, dps, dax⟩ := n
    simp only at hdata
    subst hdata
    subst hout
    unfold SqueezeNode.decompose_op
    rw [if_neg (by simp [is_static_map_static])]
    simp only [get_shape_map_static]

/-- C9: the layout pass reports no structural change, leaves every output
that already carries a layout descriptor untouched, and running it a
second time reproduces the first run's result exactly. -/
theorem layout_pass_idempotent (nodes : List CGNode) :
    (run_on_call_graph nodes).1 = false ∧
    (∀ i j tv, outputAt nodes i j = some tv → tv.layout.isSome = true →
      outputAt (run_on_call_graph nodes).2 i j = some tv) ∧
    run_on_call_graph (run_on_call_graph nodes).2 = run_on_call_graph nodes := by
  refine ⟨rfl, ?_, ?_⟩
  · intro i j tv hat hsome
    unfold outputAt at hat ⊢
    unfold run_on_call_graph
    simp only [List.getElem?_map]
    cases hni : nodes[i]? with
    | none =>
      rw [hni] at hat
      simp at hat
    | some nd =>
      rw [hni] at hat
      simp only [Option.some_bind] at hat
      simp only [Option.map_some', Option.some_bind, List.getElem?_map, hat,
        Option.map_some']
      cases htv : tv.layout with
      | none =>
        rw [htv] at hsome
        simp at hsome
      | some d =>
        simp [assign_layout, htv]
  · have hassign : ∀ tv, assign_layout (assign_layout tv) = assign_layout tv := by
      intro tv
      cases htv : tv.layout with
      | some d => simp [assign_layout, htv]
      | none => simp [assign_layout, htv]
    unfold run_on_call_graph
    simp only [Prod.mk.injEq, true_and]
    rw [List.map_map]
    apply List.map_congr_left
    intro nd _
    simp only [Function.comp]
    congr 1
    rw [List.map_map]
    apply List.map_congr_left
    intro tv _
    exact hassign tv

theorem normalize_axis_lt (rank : Nat) (a : Int) (y : Nat)
    (h : normalize_axis rank a = some y) : y < rank := by
  unfold normalize_axis at h
  split_ifs at h with h1 h2
  · obtain ⟨h1a, h1b⟩ := h1
    have := Option.some.inj h
    omega
  · obtain ⟨h2a, h2b⟩ := h2
    have := Option.some.inj h
    omega

theorem normalize_axes_lt (rank : Nat) (av : List Int) :
    ∀ naxes : List Nat, normalize_axes rank av = some naxes →
      ∀ a ∈ naxes, a < rank := by
  induction av with
  | nil =>
    intro naxes h a ha
    have hn : naxes = [] := by
      have h0 : normalize_axes rank [] = some [] := rfl
      rw [h0] at h
      exact (Option.some.inj h).symm
    subst hn
    simp at ha
  | cons x xs ih =>
    intro naxes h a ha
    unfold normalize_axes at h
    rw [List.mapM_cons] at h
    cases hx : normalize_axis rank x with
    | none =>
      rw [hx] at h
      simp at h
    | some y =>
      rw [hx] at h
      cases hxs : xs.mapM (normalize_axis rank) with
      | none =>
        rw [hxs] at h
        simp at h
      | some ys =>
        rw [hxs] at h
        simp at h
        have hcons : naxes = y :: ys := h.symm
        subst hcons
        rcases List.mem_cons.mp ha with hay | hays
        · subst hay
          exact normalize_axis_lt rank x a hx
        · exact ih ys hxs a hays

theorem squeeze_pre_validate_static (det : ElementType) (ds : List Nat) (av : List Int)
    (naxes : List Nat) (hne : ¬ av = [])
    (hnorm : normalize_axes ds.length av = some naxes) :
    SqueezeNode.pre_validate_and_infer_types ⟨det, .shape (ds.map Dim.static), some av⟩ =
      if ∀ a ∈ naxes, ds.getD a 0 = 1 then
        some (det, .shape
          (((List.range ds.length).filter (fun i => decide (i ∉ naxes))).map
            (fun i => Dim.static (ds.getD i 0))))
      else none := by
  have hvals : (ds.map Dim.static).map Dim.val = ds := by
    rw [List.map_map, val_comp_static, List.map_id]
  have hstat := is_static_map_static ds
  have hget : SqueezeNode.get_axes ⟨det, .shape (ds.map Dim.static), some av⟩ =
      some naxes := by
    simp only [SqueezeNode.get_axes]
    rw [if_neg hne, List.length_map]
    exact hnorm
  have hall : (naxes.all (fun a => decide (ds.getD a 0 = 1)) = true)
      ↔ (∀ a ∈ naxes, ds.getD a 0 = 1) := by
    rw [List.all_eq_true]
    constructor
    · intro h a ha
      exact of_decide_eq_true (h a ha)
    · intro h a ha
      exact decide_eq_true (h a ha)
  simp only [SqueezeNode.pre_validate_and_infer_types, hget, hstat, hvals,
    not_true_eq_false, false_and, if_false, true_and, List.length_map]
  by_cases hunit : ∀ a ∈ naxes, ds.getD a 0 = 1
  · rw [if_neg (fun hc => hc (hall.mpr hunit)), if_pos hunit]
    have hmapeq :
        ((List.range ds.length).filter (fun i => decide (i ∉ naxes))).map
          (fun i => (ds.map Dim.static).getD i Dim.dyn) =
        ((List.range ds.length).filter (fun i => decide (i ∉ naxes))).map
          (fun i => Dim.static (ds.getD i 0)) := by
      apply List.map_congr_left
      intro i hi
      have hilt : i < ds.length := List.mem_range.mp (List.mem_filter.mp hi).1
      exact getD_map_lt Dim.static ds i 0 Dim.dyn hilt
    rw [hmapeq]
  · rw [if_pos (fun hc => hunit (hall.mp hc)), if_neg hunit]

/-- C3 (amended): for a squeeze with a constant non-empty axis list over a
fully static data shape, whenever some normalized axis's dimension is not
1, shape inference fails validation; in particular data shape `{2,1,3}`
with axis list `{0}` fails while axis list `{1}` yields output `{2,3}`.
(When the data shape is only partially static, the size-1 check is skipped
even for axes whose dimension is statically known.) -/
theorem squeeze_nonunit_axis_fails (n : SqueezeNode) (ds : List Nat) (av : List Int)
    (naxes : List Nat)
    (hdata : n.data_ps = PShape.shape (ds.map Dim.static))
    (hax : n.axes_val = some av)
    (hne : ¬ av = [])
    (hnorm : normalize_axes ds.length av = some naxes)
    (hbad : ∃ a ∈ naxes, ¬ ds.getD a 0 = 1) :
    n.pre_validate_and_infer_types = none ∧
    sq213axis0.pre_validate_and_infer_types = none ∧
    sq213axis1.pre_validate_and_infer_types =
      some (ElementType.f32, PShape.shape [Dim.static 2, Dim.static 3]) := by
  refine ⟨?_, by decide, by decide⟩
  obtain ⟨det, dps, dax⟩ := n
  simp only at hdata hax
  subst hdata
  subst hax
  rw [squeeze_pre_validate_static det ds av naxes hne hnorm]
  rw [if_neg ?_]
  intro hall
  obtain ⟨a, ha, hne1⟩ := hbad
  exact hne1 (hall a ha)

/-- C3 witness: the data shape `{2,1,3}` with axis list `{0}` fails. -/
theorem squeeze_nonunit_axis_fails_witness :
    sq213axis0.pre_validate_and_infer_types = none :=
  (squeeze_nonunit_axis_fails sq213axis0 [2, 1, 3] [0] [0] (by decide) (by decide)
    (by decide) (by decide) ⟨0, by decide, by decide⟩).1

/-- C5 (amended): squeezing a fully static shape S by a constant non-empty
axis list whose every normalized axis indicates a dimension of size 1
yields the dimensions of S at the non-removed positions in order, with
rank `rank(S)` minus the number of distinct normalized axes. -/
theorem squeeze_static_infer (n : SqueezeNode) (ds : List Nat) (av : List Int)
    (naxes : List Nat)
    (hdata : n.data_ps = PShape.shape (ds.map Dim.static))
    (hax : n.axes_val = some av)
    (hne : ¬ av = [])
    (hnorm : normalize_axes ds.length av = some naxes)
    (hunit : ∀ a ∈ naxes, ds.getD a 0 = 1) :
    n.pre_validate_and_infer_types = some (n.data_et, PShape.shape
      (((List.range ds.length).filter (fun i => decide (i ∉ naxes))).map
        (fun i => Dim.static (ds.getD i 0)))) ∧
    (((List.range ds.length).filter (fun i => decide (i ∉ naxes))).map
      (fun i => Dim.static (ds.getD i 0))).length = ds.length - naxes.dedup.length := by
  constructor
  · obtain ⟨det, dps, dax⟩ := n
    simp only at hdata hax ⊢
    subst hdata
    subst hax
    rw [squeeze_pre_validate_static det ds av naxes hne hnorm]
    rw [if_pos hunit]
  · rw [List.length_map]
    exact filter_not_mem_length ds.length naxes (normalize_axes_lt ds.length av naxes hnorm)

/-- C5 witness: squeezing `{2,1,3}` by `{1}` gives `{2,3}`, of rank
`3 - 1 = 2`. -/
theorem squeeze_static_infer_witness :
    sq213axis1.pre_validate_and_infer_types =
      some (ElementType.f32, PShape.shape [Dim.static 2, Dim.static 3]) := by
  have h := (squeeze_static_infer sq213axis1 [2, 1, 3] [1] [1] (by decide) (by decide)
    (by decide) (by decide) (by decide)).1
  rw [h]
  decide

/-- C2 (amended): for an EXPLICIT broadcast with literal target shape and
axes-mapping over static input shapes, validation fails whenever the
axes-mapping is not sorted in non-decreasing order (`std::is_sorted`); a
repeated value alone does not force failure, but some non-decreasing
mapping with a repeated value still fails through the dimension check. -/
theorem broadcast_explicit_sorted_required (b : BroadcastNode) (target av : List Nat)
    (hmode : b.mode = .NONE)
    (hsrc : b.shape_src = .constant target)
    (hax : b.axes_val = some av)
    (hst : b.arg_ps.is_static = true ∧ b.shape_ps.is_static = true ∧
      b.axes_ps.is_static = true)
    (hsort : isSortedLe av = false) :
    b.validate_and_infer_types = none ∧
    isSortedLe [1, 1] = true ∧
    bcExplicitRepeatFail.axes_val = some [1, 1] ∧
    bcExplicitRepeatFail.validate_and_infer_types = none := by
  refine ⟨?_, by decide, rfl, by decide⟩
  obtain ⟨e1, p1, e2, p2, src, e3, p3, xval, md, ax⟩ := b
  simp only at hmode hsrc hax hst
  subst hmode
  subst hsrc
  subst hax
  obtain ⟨hst1, hst2, hst3⟩ := hst
  by_cases h1 : e2.is_integral_number = true <;>
  by_cases h2 : p2.rank_compatible_one = true <;>
  by_cases h3 : e3.is_integral_number = true <;>
  by_cases h4 : p3.rank_compatible_one = true <;>
  by_cases h5 : shape_size p3.toShape = p1.toShape.length <;>
    simp [BroadcastNode.validate_and_infer_types, BroadcastNode.validate_shape,
      BroadcastNode.shape_const, h1, h2, h3, h4, h5, hst1, hst2, hst3, hsort]

/-- C2 witness: the spec's unsorted axes-mapping `{2,0}` fails. -/
theorem broadcast_explicit_sorted_required_witness :
    bcExplicitUnsorted.validate_and_infer_types = none :=
  (broadcast_explicit_sorted_required bcExplicitUnsorted [4, 1, 3] [2, 0] rfl rfl rfl
    ⟨by decide, by decide, by decide⟩ (by decide)).1

theorem getD_range (n j : Nat) (h : j < n) : (List.range n).getD j 0 = j := by
  rw [List.getD_eq_getElem _ _ (by simpa using h)]
  simp

theorem bvalidate_numpy_reduce (b : BroadcastNode) (argS target : List Nat) (s : Nat)
    (hmode : b.mode = .NUMPY ∨ b.mode = .PDPD)
    (harg : b.arg_ps = PShape.shape (argS.map Dim.static))
    (hsrc : b.shape_src = .constant target)
    (hsps : b.shape_ps.is_static = true)
    (het : b.shape_et.is_integral_number = true)
    (hrank : b.shape_ps.rank_compatible_one = true)
    (hs : startAxis b.mode b.m_axis target.length argS.length = s) :
    b.validate_shape =
      match bcastGo argS target s (List.range' s (target.length - s))
          (target.map Dim.static) with
      | some dims => some (.shape dims)
      | none => none := by
  obtain ⟨e1, p1, e2, p2, src, e3, p3, xval, md, ax⟩ := b
  simp only at harg hsrc hsps het hrank hs hmode
  subst harg
  subst hsrc
  rcases hmode with hm | hm <;>
    subst hm <;>
    simp only [BroadcastNode.validate_shape, BroadcastNode.shape_const, het, hrank, hsps,
      is_static_map_static, toShape_map_static, List.length_map, hs, not_true_eq_false,
      if_false, false_and, and_true, true_and, and_self, if_true, Nat.zero_le,
      not_false_eq_true, reduceCtorEq, ite_true, ite_false]

/-- C4: a NUMPY/PDPD broadcast with static argument shape, literal target
shape and a valid start axis fails validation unless every aligned
position holds 1 on one side or equal dimensions; on success the aligned
output dimensions are the larger of the two and the leading target
dimensions pass through unchanged. -/
theorem broadcast_numpy_align (b : BroadcastNode) (argS target : List Nat) (s : Nat)
    (hmode : b.mode = .NUMPY ∨ b.mode = .PDPD)
    (harg : b.arg_ps = PShape.shape (argS.map Dim.static))
    (hsrc : b.shape_src = .constant target)
    (hsps : b.shape_ps.is_static = true)
    (het : b.shape_et.is_integral_number = true)
    (hrank : b.shape_ps.rank_compatible_one = true)
    (hs : startAxis b.mode b.m_axis target.length argS.length = s)
    (_hbound : target.length ≤ s + argS.length) :
    ((∀ i, s ≤ i → i < target.length → dimCompat argS target s i) →
      b.validate_and_infer_types = some (b.arg_et, PShape.shape
        ((List.range target.length).map (fun i =>
          if i < s then Dim.static (target.getD i 0)
          else Dim.static (max (argS.getD (i - s) 0) (target.getD i 0)))))) ∧
    ((∃ i, s ≤ i ∧ i < target.length ∧ ¬ dimCompat argS target s i) →
      b.validate_and_infer_types = none) := by
  have hred := bvalidate_numpy_reduce b argS target s hmode harg hsrc hsps het hrank hs
  have hmem : ∀ i, i ∈ List.range' s (target.length - s) ↔
      (s ≤ i ∧ i < target.length) := by
    intro i
    rw [List.mem_range'_1]
    omega
  constructor
  · intro hcompat
    obtain ⟨out, hgo, hlen, hget⟩ :=
      bcastGo_some argS target s (List.range' s (target.length - s)) (target.map Dim.static)
        (fun i hi => hcompat i ((hmem i).mp hi).1 ((hmem i).mp hi).2)
        (fun i hi => by
          rw [List.length_map]
          exact ((hmem i).mp hi).2)
    have hout : out = (List.range target.length).map (fun i =>
        if i < s then Dim.static (target.getD i 0)
        else Dim.static (max (argS.getD (i - s) 0) (target.getD i 0))) := by
      apply list_eq_of_getD
      · rw [hlen, List.length_map, List.length_map, List.length_range]
      · intro j hj
        rw [hlen, List.length_map] at hj
        rw [hget j]
        rw [getD_map_lt (fun i => if i < s then Dim.static (target.getD i 0)
              else Dim.static (max (argS.getD (i - s) 0) (target.getD i 0)))
            (List.range target.length) j 0 Dim.dyn (by simpa using hj)]
        rw [getD_range _ _ hj]
        by_cases hjs : s ≤ j
        · rw [if_pos ((hmem j).mpr ⟨hjs, hj⟩), if_neg (by omega)]
        · rw [if_neg (fun hmm => hjs ((hmem j).mp hmm).1), if_pos (by omega),
            getD_map_lt Dim.static target j 0 Dim.dyn hj]
    unfold BroadcastNode.validate_and_infer_types
    rw [hred, hgo, hout]
    rfl
  · intro hbad
    obtain ⟨i, hsi, hil, hnc⟩ := hbad
    have hnone := bcastGo_none argS target s (List.range' s (target.length - s))
      (target.map Dim.static) ⟨i, (hmem i).mpr ⟨hsi, hil⟩, hnc⟩
    unfold BroadcastNode.validate_and_infer_types
    rw [hred, hnone]
    rfl

/-- C4 witness: broadcasting argument `{1,3}` to target `{4,1,3}` in NUMPY
mode (start axis 1) succeeds with output `{4,1,3}`. -/
theorem broadcast_numpy_align_witness :
    bcNumpyOk.validate_and_infer_types =
      some (ElementType.f32, PShape.shape [Dim.static 4, Dim.static 1, Dim.static 3]) := by
  have hcompat : ∀ i, 1 ≤ i → i < ([4, 1, 3] : List Nat).length →
      dimCompat [1, 3] [4, 1, 3] 1 i := by
    intro i h1 h2
    simp only [List.length_cons, List.length_nil] at h2
    interval_cases i <;> decide
  have h := (broadcast_numpy_align bcNumpyOk [1, 3] [4, 1, 3] 1 (Or.inl rfl) rfl rfl
    (by decide) (by decide) (by decide) (by decide) (by decide)).1 hcompat
  rw [h]
  decide

/-- C6: in NUMPY/PDPD mode `get_broadcast_axes` never fails; it reports
`known = true` exactly when both the argument shape and the output shape
are static, and then synthesizes axis `i` of the output iff `i` lies
before the start axis or the output dimension there differs from the
aligned argument dimension; otherwise it reports `known = false`. -/
theorem broadcast_axes_known_iff (b : BroadcastNode) (out_ps : PShape) (s : Nat)
    (hmode : b.mode = .NUMPY ∨ b.mode = .PDPD)
    (hs : startAxis b.mode b.m_axis out_ps.toShape.length b.arg_ps.toShape.length = s)
    (_hbound : out_ps.toShape.length ≤ s + b.arg_ps.toShape.length) :
    ∃ axes, b.get_broadcast_axes out_ps =
        some ((b.arg_ps.is_static && out_ps.is_static), axes) ∧
      ((b.arg_ps.is_static && out_ps.is_static) = true →
        ∀ i, i ∈ axes ↔ i < out_ps.toShape.length ∧
          (i < s ∨ ¬ out_ps.toShape.getD i 0 = b.arg_ps.toShape.getD (i - s) 0)) ∧
      ((b.arg_ps.is_static && out_ps.is_static) = false → axes = []) := by
  have hnotnone : ¬ b.mode = .NONE := by
    rcases hmode with h | h <;> simp [h]
  have hred : b.get_broadcast_axes out_ps =
      (if b.arg_ps.is_static = true ∧ out_ps.is_static = true then
        some (true, (List.range out_ps.toShape.length).filter
          (fun i => decide (i < s) ||
            decide (¬ out_ps.toShape.getD i 0 = b.arg_ps.toShape.getD (i - s) 0)))
      else some (false, [])) := by
    rcases hmode with h | h <;>
      simp only [BroadcastNode.get_broadcast_axes, h, hs] at hs ⊢ <;>
      rw [hs]
  by_cases hstat : b.arg_ps.is_static = true ∧ out_ps.is_static = true
  · refine ⟨(List.range out_ps.toShape.length).filter
      (fun i => decide (i < s) ||
        decide (¬ out_ps.toShape.getD i 0 = b.arg_ps.toShape.getD (i - s) 0)), ?_, ?_, ?_⟩
    · rw [hred, if_pos hstat, hstat.1, hstat.2]
      rfl
    · intro _ i
      rw [List.mem_filter, List.mem_range]
      constructor
      · intro ⟨hi, hp⟩
        refine ⟨hi, ?_⟩
        rcases Bool.or_eq_true_iff.mp hp with hp | hp
        · exact Or.inl (of_decide_eq_true hp)
        · exact Or.inr (of_decide_eq_true hp)
      · intro ⟨hi, hp⟩
        refine ⟨hi, ?_⟩
        rcases hp with hp | hp
        · exact Bool.or_eq_true_iff.mpr (Or.inl (decide_eq_true hp))
        · exact Bool.or_eq_true_iff.mpr (Or.inr (decide_eq_true hp))
    · intro hfalse
      rw [hstat.1, hstat.2] at hfalse
      simp at hfalse
  · refine ⟨[], ?_, ?_, fun _ => rfl⟩
    · rw [hred, if_neg hstat]
      have hf : (b.arg_ps.is_static && out_ps.is_static) = false := by
        cases h1 : b.arg_ps.is_static <;> cases h2 : out_ps.is_static <;>
          simp_all
      rw [hf]
    · intro htrue
      rcases Bool.and_eq_true_iff.mp htrue with ⟨h1, h2⟩
      exact absurd ⟨h1, h2⟩ hstat

/-- C6 witness: for the NUMPY broadcast of `{1,3}` with output `{4,1,3}`
(start axis 1) the axes are known and exactly axis 0 is synthesized. -/
theorem broadcast_axes_known_iff_witness :
    ∃ axes, bcNumpyOk.get_broadcast_axes
        (PShape.shape [Dim.static 4, Dim.static 1, Dim.static 3]) = some (true, axes) ∧
      0 ∈ axes ∧ ¬ 1 ∈ axes ∧ ¬ 2 ∈ axes := by
  obtain ⟨axes, h1, h2, h3⟩ := broadcast_axes_known_iff bcNumpyOk
    (PShape.shape [Dim.static 4, Dim.static 1, Dim.static 3]) 1 (Or.inl rfl)
    (by decide) (by decide)
  refine ⟨axes, h1, ?_, ?_, ?_⟩
  · exact (h2 (by decide) 0).mpr ⟨by decide, Or.inl (by decide)⟩
  · intro hmem
    rcases ((h2 (by decide) 1).mp hmem).2 with hlt | hne
    · omega
    · exact hne (by decide)
  · intro hmem
    rcases ((h2 (by decide) 2).mp hmem).2 with hlt | hne
    · omega
    · exact hne (by decide)
